import Mathlib

/-!
Verification development for the PostgreSQL MCP server's hybrid-search core:
a shallow embedding in Lean 4 of the mode router, the hybrid fusion pipeline
(`src/services/hybridSearchService.ts`), the intelligent-search orchestrator
(`src/services/intelligentSearchService.ts`) and the embedding cache and
generator (`EmbeddingService`), together with proofs of the documented
behaviour.  Numeric scores are modelled over `ℚ` (exact arithmetic); database
queries and the remote embedding HTTP call are modelled as oracles whose
responses are explicit arguments, and the number of external calls a code
path performs is returned alongside its result so that short-circuit
properties are expressible.
-/

set_option maxRecDepth 10000

/-! ### String helpers

JavaScript string primitives used by the source (`trim`, `toLowerCase`,
`split(' ')`, `startsWith`, `includes`, `.length`) modelled as structurally
recursive functions over `List Char`, so that every theorem below can be
evaluated by the kernel. -/

/-- Whitespace recognised by `String.prototype.trim` (ASCII subset, which
covers every query appearing in this development). -/
def isJsSpace (c : Char) : Bool :=
  c = ' ' || c = '\t' || c = '\n' || c = '\r'

/-- `s.trim()` on the character list: drop whitespace from both ends. -/
def jsTrim (cs : List Char) : List Char :=
  ((cs.dropWhile isJsSpace).reverse.dropWhile isJsSpace).reverse

/-- `s.toLowerCase()` on the character list (ASCII case folding). -/
def jsToLower (cs : List Char) : List Char :=
  cs.map Char.toLower

/-- `s.trim()` at the `String` level. -/
def jsTrimStr (s : String) : String :=
  String.mk (jsTrim s.data)

/-- `pat` is a prefix of `s` (JavaScript `s.startsWith(pat)`). -/
def listStarts (pat s : List Char) : Bool :=
  match pat, s with
  | [], _ => true
  | _ :: _, [] => false
  | p :: ps, c :: cs => p = c && listStarts ps cs

/-- `s.includes(pat)`: `pat` occurs contiguously somewhere in `s`. -/
def hasSub (pat : List Char) : List Char → Bool
  | [] => pat.isEmpty
  | c :: cs => listStarts pat (c :: cs) || hasSub pat cs

/-- `s.split(' ')`: cut at every single space character; `n` spaces yield
`n + 1` pieces, exactly as in JavaScript. -/
def splitSpaces : List Char → List (List Char)
  | [] => [[]]
  | c :: cs =>
    if c = ' ' then [] :: splitSpaces cs
    else
      match splitSpaces cs with
      | [] => [[c]]
      | piece :: rest => (c :: piece) :: rest

/-! ### Embedding cache

`EmbeddingService` keeps `private cache: Map<string, number[]>` with
`private maxCacheSize = 1000`.  A JavaScript `Map` iterates in insertion
order and holds at most one entry per key, so it is embedded as an
association list ordered by insertion, with `set` replacing in place on an
existing key and appending on a fresh key, and `keys().next().value` being
the head key. -/

/-- Insertion-ordered model of the `Map<string, number[]>` embedding cache. -/
abbrev Cache : Type := List (String × List ℚ)

/-- `maxCacheSize = 1000` from `EmbeddingService`. -/
def maxCacheSize : ℕ := 1000

/-- `cache.size` of the modelled map. -/
def cacheSize (c : Cache) : ℕ := List.length c

/-- `cache.has(k)`. -/
def cacheHas (k : String) (c : Cache) : Bool :=
  c.any (fun kv => decide (kv.1 = k))

/-- `cache.get(k)`. -/
def cacheGet (k : String) (c : Cache) : Option (List ℚ) :=
  (c.find? (fun kv => decide (kv.1 = k))).map (fun kv => kv.2)

/-- `cache.set(k, v)`: overwrite in place when the key is present (keeping
its insertion position, as a JavaScript `Map` does), append otherwise. -/
def cacheSet (k : String) (v : List ℚ) (c : Cache) : Cache :=
  if cacheHas k c then
    c.map (fun kv => if kv.1 = k then (k, v) else kv)
  else
    c ++ [(k, v)]

/-- `cache.keys().next().value`: the oldest-inserted key, if any. -/
def cacheFirstKey (c : Cache) : Option String :=
  (c.map Prod.fst).head?

/-- `cache.delete(k)`: remove the (unique) entry with key `k`. -/
def cacheDelete (k : String) (c : Cache) : Cache :=
  c.eraseP (fun kv => decide (kv.1 = k))

/-- `EmbeddingService.addToCache` (identical in both source variants):

    if (this.cache.size >= this.maxCacheSize) {
      const firstKey = this.cache.keys().next().value;
      if (firstKey !== undefined) this.cache.delete(firstKey);
    }
    this.cache.set(key, embedding);
-/
def addToCache (key : String) (embedding : List ℚ) (c : Cache) : Cache :=
  let c1 :=
    if maxCacheSize ≤ cacheSize c then
      match cacheFirstKey c with
      | some firstKey => cacheDelete firstKey c
      | none => c
    else c
  cacheSet key embedding c1

/-! ### Embedding generator

`EmbeddingService.generateEmbedding` and `generateWithAPI` from the active
service variant (the OpenRouter/OpenAI one, whose mock fallback is deleted).
The axios POST to the embeddings endpoint is an oracle argument
`apiResp : Except String (Option (List (List ℚ)))`: `Except.error m` is a
thrown request error with message `m` (network failure, non-2xx status),
`Except.ok none` is a 2xx response whose body lacks the `data` array, and
`Except.ok (some l)` is a 2xx response whose `data` array holds the
embeddings `l`.  `generateEmbedding` returns the vector, the updated cache
and the number of remote calls issued. -/

/-- Error message thrown when no API key is configured. -/
def noApiKeyMsg : String :=
  "❌ CRITICAL: No API Configuration found. Mock mode is disabled. Please set OPEN_ROUTER_API_KEY in .env"

/-- Error message for a well-formed HTTP response with no embedding data. -/
def invalidRespMsg : String :=
  "Invalid API Response format: No embedding data found"

/-- `EmbeddingService.generateWithAPI`: unwrap the response; any error
escaping the `try` block (including the locally thrown malformed-response
error) is rethrown with its message prefixed by `API Error: `. -/
def generateWithAPI (apiResp : Except String (Option (List (List ℚ)))) :
    Except String (List ℚ) :=
  match apiResp with
  | Except.error msg => Except.error ("API Error: " ++ msg)
  | Except.ok respData =>
    match respData with
    | some (vec :: _) => Except.ok vec
    | some [] => Except.error ("API Error: " ++ invalidRespMsg)
    | none => Except.error ("API Error: " ++ invalidRespMsg)

/-- `EmbeddingService.generateEmbedding` (active variant): trim the text,
short-circuit to a zero vector on blank input, consult the cache, otherwise
call the remote API when a key is configured and fail loudly when not.
Result: `(vector, cache after the call, number of remote calls made)`. -/
def generateEmbedding (text model : String) (useCache : Bool) (dimensions : ℕ)
    (apiKey : Option String) (cache : Cache)
    (apiResp : Except String (Option (List (List ℚ)))) :
    Except String (List ℚ × Cache × ℕ) :=
  let normalizedText := jsTrimStr text
  if normalizedText = "" then
    Except.ok (List.replicate dimensions 0, cache, 0)
  else
    let cacheKey := model ++ ":" ++ normalizedText
    if useCache && cacheHas cacheKey cache then
      Except.ok ((cacheGet cacheKey cache).getD [], cache, 0)
    else
      match apiKey with
      | some _ =>
        match generateWithAPI apiResp with
        | Except.ok embedding =>
          Except.ok
            (embedding,
             if useCache then addToCache cacheKey embedding cache else cache,
             1)
        | Except.error e => Except.error e
      | none => Except.error noApiKeyMsg

/-! ### Hybrid fusion pipeline

`HybridSearchService.performHybridSearch` from
`src/services/hybridSearchService.ts`.  The two SQL stages and the embedding
call are oracles: `textRows` is the row set returned by the full-text
pre-filter query, `embedStage` is the `embeddingService.generateEmbedding`
call, and `vectorStage` receives the query vector and the candidate ids and
returns the rows of the vector re-rank query (each carrying `similarity`
computed by the store as `1 - distance` and the joined `text_rank`).  The
result carries `(fused rows, embedding calls made, vector queries made)`. -/

/-- A row of the full-text pre-filter query: `SELECT id, content, text_rank`. -/
structure TextRow where
  id : Int
  content : String
  text_rank : ℚ
  deriving DecidableEq

/-- A row of the vector re-rank query: `d.*` plus `similarity` and
`t.text_rank`, reduced to the fields the fusion step reads. -/
structure VectorRow where
  id : Int
  similarity : ℚ
  text_rank : ℚ
  deriving DecidableEq

/-- A fused result record: the vector row extended with the assigned `rank`
and the blended `final_score`. -/
structure FusedRow where
  id : Int
  similarity : ℚ
  text_rank : ℚ
  rank : ℕ
  final_score : ℚ
  deriving DecidableEq

/-- Stable insertion step for the descending sort
`mergedResults.sort((a, b) => b.final_score - a.final_score)`: place `x`
before the first element whose score is at most `x`'s, keeping earlier
elements first on ties (JavaScript `Array.prototype.sort` is stable). -/
def insertByScore (x : FusedRow) : List FusedRow → List FusedRow
  | [] => [x]
  | y :: ys =>
    if x.final_score < y.final_score then y :: insertByScore x ys
    else x :: y :: ys

/-- The stable descending sort by `final_score`. -/
def sortByScoreDesc (l : List FusedRow) : List FusedRow :=
  l.foldr insertByScore []

/-- Step 4 of `performHybridSearch`: map each vector row to a fused record
with `rank = index + 1` and
`final_score = similarity * 0.7 + text_rank * 0.3`, then sort the merged
list descending by `final_score`.  Note the source assigns `rank` from the
vector-result index before the sort. -/
def fuseAndRank (rows : List VectorRow) : List FusedRow :=
  sortByScoreDesc
    (rows.enum.map (fun p =>
      { id := p.2.id
        similarity := p.2.similarity
        text_rank := p.2.text_rank
        rank := p.1 + 1
        final_score := p.2.similarity * (7 / 10) + p.2.text_rank * (3 / 10) }))

/-- `HybridSearchService.performHybridSearch`: full-text pre-filter, then
(unless it was empty) one embedding call, one vector re-rank restricted to
the candidate ids, and the fusion step.  A failing stage propagates its
error (`await` rethrows).  The two counters record how many embedding calls
and vector queries were issued. -/
def performHybridSearch (textRows : List TextRow)
    (embedStage : Unit → Except String (List ℚ))
    (vectorStage : List ℚ → List Int → Except String (List VectorRow)) :
    Except String (List FusedRow × ℕ × ℕ) :=
  if textRows.length = 0 then
    Except.ok ([], 0, 0)
  else
    match embedStage () with
    | Except.error e => Except.error e
    | Except.ok queryVector =>
      match vectorStage queryVector (textRows.map (fun r => r.id)) with
      | Except.error e => Except.error e
      | Except.ok rows => Except.ok (fuseAndRank rows, 1, 1)

/-! ### Intelligent search orchestrator

`IntelligentSearchService` from `src/services/intelligentSearchService.ts`:
the mode router `detectSearchMode`, the `switch (detectedMode)` dispatch of
`search` (whose stages are oracles, and whose trace of invoked stages is
returned so that single-dispatch is expressible), the wrapping `catch`, and
the `performVectorSearch` branch with its constant `fromCache = false`. -/

/-- `IntelligentSearchService.detectSearchMode`: lower-case and trim the
query; an explicit requested mode wins; otherwise test/debug markers and
performance keywords route to `text`, at most two whitespace-split tokens
route to `text`, French interrogative markers or length above 50 route to
`hybrid`, and everything else to `vector`. -/
def detectSearchMode (userQuery requestedMode : String) : String :=
  let query := jsToLower (jsTrim userQuery.data)
  if requestedMode ≠ ("auto") then requestedMode
  else if listStarts ("test:").data query || listStarts ("debug:").data query ||
      listStarts ("random:").data query || hasSub ("performance").data query ||
      hasSub ("benchmark").data query then ("text")
  else if (splitSpaces query).length ≤ 2 then ("text")
  else if hasSub ("comment").data query || hasSub ("pourquoi").data query ||
      hasSub ("quelle est").data query || decide (query.length > 50) then ("hybrid")
  else ("vector")

/-- The `switch (detectedMode)` block of `IntelligentSearchService.search`:
run the stage selected by the detected mode, or throw
`Mode non supporté: …` in the default branch.  The second component is the
trace of stage names invoked (empty for the default branch). -/
def dispatchMode {α : Type} (detectedMode : String)
    (textStage vectorStage hybridStage : Unit → Except String α) :
    Except String α × List String :=
  if detectedMode = ("text") then (textStage (), [("text")])
  else if detectedMode = ("vector") then (vectorStage (), [("vector")])
  else if detectedMode = ("hybrid") then (hybridStage (), [("hybrid")])
  else (Except.error (("Mode non supporté: ") ++ detectedMode), [])

/-- `IntelligentSearchService.search`: resolve the mode, dispatch once, and
rethrow any error from the `try` block as
`new Error("Échec de recherche: " + error.message)`. -/
def intelligentSearch {α : Type} (query mode : String)
    (textStage vectorStage hybridStage : Unit → Except String α) :
    Except String α × List String :=
  let detectedMode := detectSearchMode query mode
  let dispatched := dispatchMode detectedMode textStage vectorStage hybridStage
  (match dispatched.1 with
   | Except.ok v => Except.ok v
   | Except.error e => Except.error (("Échec de recherche: ") ++ e),
   dispatched.2)

/-- The metadata fields of `IntelligentSearchService.search` relevant to the
vector branch. -/
structure SearchMetadata where
  embeddingGenerated : Bool
  cacheHit : Bool
  deriving DecidableEq

/-- `IntelligentSearchService.performVectorSearch`: embed the query, set the
hard-coded `const fromCache = false`, run the vector query, and return the
rows together with `fromCache`. -/
def performVectorSearchIS {α : Type} (embedStage : Unit → Except String (List ℚ))
    (queryStage : List ℚ → Except String α) :
    Except String (α × Bool) :=
  match embedStage () with
  | Except.error e => Except.error e
  | Except.ok embedding =>
    let fromCache := false
    match queryStage embedding with
    | Except.error e => Except.error e
    | Except.ok rows => Except.ok (rows, fromCache)

/-- The `case 'vector'` branch of `IntelligentSearchService.search`: run
`performVectorSearch` and build the returned metadata with
`embeddingGenerated: true, cacheHit: vectorResult.fromCache`. -/
def vectorBranch {α : Type} (embedStage : Unit → Except String (List ℚ))
    (queryStage : List ℚ → Except String α) :
    Except String (α × SearchMetadata) :=
  match performVectorSearchIS embedStage queryStage with
  | Except.error e => Except.error e
  | Except.ok result =>
    Except.ok (result.1, { embeddingGenerated := true, cacheHit := result.2 })

/-- Concrete distinct cache keys for exercising the eviction bound:
`witnessKey n` is the string of `n` letters `a`. -/
def witnessKey (n : ℕ) : String := String.mk (List.replicate n ('a'))

/-- `maxCacheSize` distinct non-empty keys, pairwise distinct by length. -/
def witnessKeys : List String :=
  (List.range maxCacheSize).map (fun n => witnessKey (n + 1))

/-! ### Helper lemmas -/

/-- `insertByScore` permutes: inserting is consing, up to permutation. -/
theorem insertByScore_perm (x : FusedRow) (l : List FusedRow) :
    List.Perm (insertByScore x l) (x :: l) := by
  induction l with
  | nil => exact List.Perm.refl _
  | cons y ys ih =>
    unfold insertByScore
    by_cases h : x.final_score < y.final_score
    · rw [if_pos h]
      exact (ih.cons y).trans (List.Perm.swap x y ys)
    · rw [if_neg h]

/-- The descending sort is a permutation of its input. -/
theorem sortByScoreDesc_perm (l : List FusedRow) :
    List.Perm (sortByScoreDesc l) l := by
  induction l with
  | nil => exact List.Perm.refl _
  | cons x xs ih => exact (insertByScore_perm x _).trans (ih.cons x)

/-! ### Claims -/

/-- Claim C1, code-bug exhibit: `performHybridSearch` assigns `rank` from
the vector-distance position before sorting by `final_score`, so on a run
where the two orders differ the returned list is in descending
`final_score` order but the record at 1-based position 1 carries
`rank = 2` and the one at position 2 carries `rank = 1`, refuting the
documented invariant that position `i` carries `rank = i`. -/
theorem hybrid_rank_assigned_before_sort :
    performHybridSearch [⟨1, ("docA"), 0⟩, ⟨2, ("docB"), 1 / 2⟩]
      (fun _ => Except.ok [1])
      (fun _ _ => Except.ok [⟨1, 9 / 10, 0⟩, ⟨2, 8 / 10, 1 / 2⟩]) =
      Except.ok ([⟨2, 8 / 10, 1 / 2, 2, 71 / 100⟩, ⟨1, 9 / 10, 0, 1, 63 / 100⟩], 1, 1) := by
  simp only [performHybridSearch, fuseAndRank, sortByScoreDesc, insertByScore,
    List.enum, List.enumFrom, List.map, List.foldr, List.length]
  norm_num [FusedRow.mk.injEq]

/-- Claim C2: every record returned by the hybrid fusion step has
`final_score = 0.7 × similarity + 0.3 × textRank`, exactly, over the exact
rational embedding of the score arithmetic. -/
theorem hybrid_final_score_is_blend (rows : List VectorRow) (r : FusedRow)
    (hr : r ∈ fuseAndRank rows) :
    r.final_score = 7 / 10 * r.similarity + 3 / 10 * r.text_rank := by
  rw [fuseAndRank, (sortByScoreDesc_perm _).mem_iff] at hr
  obtain ⟨p, _, rfl⟩ := List.mem_map.mp hr
  show p.2.similarity * (7 / 10) + p.2.text_rank * (3 / 10) =
    7 / 10 * p.2.similarity + 3 / 10 * p.2.text_rank
  ring

/-- Witness for C2 at a concrete one-row input. -/
theorem hybrid_final_score_is_blend_witness :
    (⟨1, 1, 1, 1, (1 : ℚ) * (7 / 10) + 1 * (3 / 10)⟩ : FusedRow).final_score =
      7 / 10 * (⟨1, 1, 1, 1, (1 : ℚ) * (7 / 10) + 1 * (3 / 10)⟩ : FusedRow).similarity +
      3 / 10 * (⟨1, 1, 1, 1, (1 : ℚ) * (7 / 10) + 1 * (3 / 10)⟩ : FusedRow).text_rank :=
  hybrid_final_score_is_blend [⟨1, 1, 1⟩] _
    (by simp [fuseAndRank, sortByScoreDesc, insertByScore, List.enum, List.enumFrom])

/-- Claim C3: when the full-text pre-filter returns zero rows,
`performHybridSearch` succeeds with an empty result list, makes no
embedding call and runs no vector query, for every embedding and vector
oracle. -/
theorem hybrid_prefilter_short_circuit (textRows : List TextRow)
    (embedStage : Unit → Except String (List ℚ))
    (vectorStage : List ℚ → List Int → Except String (List VectorRow))
    (h : textRows.length = 0) :
    performHybridSearch textRows embedStage vectorStage = Except.ok ([], 0, 0) := by
  simp [performHybridSearch, h]

/-- Witness for C3 at the empty row set. -/
theorem hybrid_prefilter_short_circuit_witness :
    performHybridSearch [] (fun _ => Except.ok [])
      (fun _ _ => Except.ok []) = Except.ok ([], 0, 0) :=
  hybrid_prefilter_short_circuit [] _ _ rfl

/-- Claim C5: for blank input (empty after trimming), `generateEmbedding`
returns a zero vector of the requested dimension, leaves the cache
untouched and makes no remote call, whatever the API key, cache and
response oracle are. -/
theorem embed_empty_text_zero_vector (text model : String) (useCache : Bool)
    (dimensions : ℕ) (apiKey : Option String) (cache : Cache)
    (apiResp : Except String (Option (List (List ℚ))))
    (h : jsTrimStr text = "") :
    generateEmbedding text model useCache dimensions apiKey cache apiResp =
      Except.ok (List.replicate dimensions 0, cache, 0) ∧
    (List.replicate dimensions (0 : ℚ)).length = dimensions ∧
    ∀ x ∈ List.replicate dimensions (0 : ℚ), x = 0 := by
  refine ⟨?_, List.length_replicate dimensions 0,
    fun x hx => List.eq_of_mem_replicate hx⟩
  simp [generateEmbedding, h]

/-- Witness for C5 on a whitespace-only text of dimension 4. -/
theorem embed_empty_text_zero_vector_witness :
    generateEmbedding (" ") ("m") true 4 none [] (Except.ok none) =
      Except.ok (List.replicate 4 0, [], 0) :=
  (embed_empty_text_zero_vector (" ") ("m") true 4 none [] (Except.ok none)
    (by decide)).1

/-- Claim C10: whenever the vector branch of `IntelligentSearchService.search`
returns successfully, the `cacheHit` metadata field is `false`, whatever the
embedding and query oracles did. -/
theorem vector_mode_cache_hit_false {α : Type}
    (embedStage : Unit → Except String (List ℚ))
    (queryStage : List ℚ → Except String α)
    (rows : α) (md : SearchMetadata)
    (h : vectorBranch embedStage queryStage = Except.ok (rows, md)) :
    md.cacheHit = false := by
  have key : ∀ r, performVectorSearchIS embedStage queryStage = Except.ok r →
      r.2 = false := by
    intro r hr
    unfold performVectorSearchIS at hr
    rcases hemb : embedStage () with e | v <;> rw [hemb] at hr
    · exact Except.noConfusion hr
    · dsimp only at hr
      rcases hq : queryStage v with e | rows2 <;> rw [hq] at hr
      · exact Except.noConfusion hr
      · simp only [Except.ok.injEq] at hr
        rw [← hr]
  unfold vectorBranch at h
  cases hp : performVectorSearchIS embedStage queryStage with
  | error e => rw [hp] at h; exact Except.noConfusion h
  | ok result =>
    rw [hp] at h
    simp only [Except.ok.injEq, Prod.mk.injEq] at h
    rw [← h.2]
    exact key result hp

/-- Witness for C10 with concrete succeeding oracles. -/
theorem vector_mode_cache_hit_false_witness :
    ({ embeddingGenerated := true, cacheHit := false } : SearchMetadata).cacheHit = false :=
  vector_mode_cache_hit_false (fun _ => Except.ok [1]) (fun _ => Except.ok (42 : ℕ))
    42 { embeddingGenerated := true, cacheHit := false } rfl

/-- Claim C4: with a non-blank text and no usable cache entry,
`generateEmbedding` fails loudly on every remote-call failure mode —
missing API credential, request error, and malformed or empty response
body — propagating an error that carries the underlying message, and in
particular never succeeds with a substitute vector. -/
theorem embed_failure_propagates (text model : String) (useCache : Bool)
    (dimensions : ℕ) (cache : Cache)
    (h1 : ¬ jsTrimStr text = "")
    (h2 : (useCache && cacheHas (model ++ ":" ++ jsTrimStr text) cache) = false) :
    (∀ apiResp, generateEmbedding text model useCache dimensions none cache apiResp =
        Except.error noApiKeyMsg) ∧
    (∀ k m, generateEmbedding text model useCache dimensions (some k) cache
        (Except.error m) = Except.error (("API Error: ") ++ m)) ∧
    (∀ k, generateEmbedding text model useCache dimensions (some k) cache
        (Except.ok none) = Except.error (("API Error: ") ++ invalidRespMsg)) ∧
    (∀ k, generateEmbedding text model useCache dimensions (some k) cache
        (Except.ok (some [])) = Except.error (("API Error: ") ++ invalidRespMsg)) := by
  refine ⟨fun apiResp => ?_, fun k m => ?_, fun k => ?_, fun k => ?_⟩ <;>
    simp [generateEmbedding, generateWithAPI, h1, h2]

/-- Witness for C4: a concrete non-blank text with an empty cache, under a
missing key and under a failing request. -/
theorem embed_failure_propagates_witness :
    generateEmbedding ("hi") ("m") true 1536 none [] (Except.ok none) =
      Except.error noApiKeyMsg ∧
    generateEmbedding ("hi") ("m") true 1536 (some ("k")) [] (Except.error ("boom")) =
      Except.error (("API Error: ") ++ ("boom")) :=
  ⟨(embed_failure_propagates ("hi") ("m") true 1536 [] (by decide) (by decide)).1 _,
   (embed_failure_propagates ("hi") ("m") true 1536 [] (by decide) (by decide)).2.1
     ("k") ("boom")⟩

/-- Claim C6, counterexample: on the scenario-B query with mode `auto`, the
router does not return `hybrid` — the interrogative markers in the source
are the French set and the query is 47 characters long, so no `hybrid` rule
fires. -/
theorem router_scenario_b_not_hybrid :
    detectSearchMode ("How does quantum computing affect cryptography?") ("auto") ≠
      ("hybrid") := by
  decide

/-- Claim C6, amended: on the scenario-B query with mode `auto`, the router
returns `vector` (the default for a medium-length declarative query, since
none of `comment` / `pourquoi` / `quelle est` occur and the length 47 does
not exceed 50). -/
theorem router_scenario_b_vector :
    detectSearchMode ("How does quantum computing affect cryptography?") ("auto") =
      ("vector") := by
  decide

/-- Claim C8, counterexample: the orchestrator does not propagate a
downstream error unmodified — a text-stage failure with message `boom`
surfaces as `Échec de recherche: boom`, a different error value. -/
theorem orchestrator_error_rewrapped :
    (intelligentSearch ("ai") ("text") (fun _ => Except.error ("boom"))
        (fun _ => Except.ok (0 : ℕ)) (fun _ => Except.ok 0)).1 =
      Except.error ("Échec de recherche: boom") ∧
    (Except.error ("Échec de recherche: boom") : Except String ℕ) ≠
      Except.error ("boom") := by
  exact ⟨rfl, by simp⟩

/-- Claim C8, amended: a downstream error surfaces to the caller as a
failure after a single dispatch of the selected stage — no retry and no
fallback to another mode — but wrapped in a new error whose message
prefixes `Échec de recherche: ` to the underlying message. -/
theorem orchestrator_error_wrapped_single_dispatch {α : Type}
    (query mode : String)
    (textStage vectorStage hybridStage : Unit → Except String α) (e : String)
    (h : (detectSearchMode query mode = ("text") ∧ textStage () = Except.error e) ∨
        (detectSearchMode query mode = ("vector") ∧ vectorStage () = Except.error e) ∨
        (detectSearchMode query mode = ("hybrid") ∧ hybridStage () = Except.error e)) :
    (intelligentSearch query mode textStage vectorStage hybridStage).1 =
      Except.error (("Échec de recherche: ") ++ e) ∧
    (intelligentSearch query mode textStage vectorStage hybridStage).2 =
      [detectSearchMode query mode] := by
  unfold intelligentSearch dispatchMode
  rcases h with ⟨hd, hs⟩ | ⟨hd, hs⟩ | ⟨hd, hs⟩ <;> rw [hd] <;> simp [hs]

/-- Witness for the amended C8 at a concrete failing text stage. -/
theorem orchestrator_error_wrapped_witness :
    (intelligentSearch ("ai") ("text") (fun _ => Except.error ("boom"))
        (fun _ => Except.ok (1 : ℕ)) (fun _ => Except.ok 1)).1 =
      Except.error (("Échec de recherche: ") ++ ("boom")) ∧
    (intelligentSearch ("ai") ("text") (fun _ => Except.error ("boom"))
        (fun _ => Except.ok (1 : ℕ)) (fun _ => Except.ok 1)).2 =
      [detectSearchMode ("ai") ("text")] :=
  orchestrator_error_wrapped_single_dispatch ("ai") ("text") _ _ _ ("boom")
    (Or.inl ⟨rfl, rfl⟩)

/-- Claim C9: for any query and any requested mode among `auto`, `text`,
`vector` and `hybrid`, `detectSearchMode` returns one of `text`, `vector`,
`hybrid`, and the `switch` dispatch therefore takes a real branch — its
trace is exactly the detected mode, never the empty trace of the
`Mode non supporté` default branch. -/
theorem detect_mode_total {α : Type} (query mode : String)
    (textStage vectorStage hybridStage : Unit → Except String α)
    (h : mode = ("auto") ∨ mode = ("text") ∨ mode = ("vector") ∨ mode = ("hybrid")) :
    (detectSearchMode query mode = ("text") ∨
      detectSearchMode query mode = ("vector") ∨
      detectSearchMode query mode = ("hybrid")) ∧
    (dispatchMode (detectSearchMode query mode) textStage vectorStage hybridStage).2 =
      [detectSearchMode query mode] := by
  have hmem : detectSearchMode query mode = ("text") ∨
      detectSearchMode query mode = ("vector") ∨
      detectSearchMode query mode = ("hybrid") := by
    rcases h with rfl | rfl | rfl | rfl
    · simp only [detectSearchMode, ne_eq, not_true_eq_false, if_false]
      split
      · exact Or.inl rfl
      · split
        · exact Or.inl rfl
        · split
          · exact Or.inr (Or.inr rfl)
          · exact Or.inr (Or.inl rfl)
    · exact Or.inl (by simp [detectSearchMode])
    · exact Or.inr (Or.inl (by simp [detectSearchMode]))
    · exact Or.inr (Or.inr (by simp [detectSearchMode]))
  refine ⟨hmem, ?_⟩
  rcases hmem with hd | hd | hd <;> rw [hd] <;> simp [dispatchMode]

/-- Witness for C9 at a concrete query in `auto` mode. -/
theorem detect_mode_total_witness :
    (detectSearchMode ("hello world") ("auto") = ("text") ∨
      detectSearchMode ("hello world") ("auto") = ("vector") ∨
      detectSearchMode ("hello world") ("auto") = ("hybrid")) ∧
    (dispatchMode (detectSearchMode ("hello world") ("auto"))
        (fun _ => Except.ok (1 : ℕ)) (fun _ => Except.ok 1)
        (fun _ => Except.ok 1)).2 =
      [detectSearchMode ("hello world") ("auto")] :=
  detect_mode_total ("hello world") ("auto") _ _ _ (Or.inl rfl)

/-- A key is absent exactly when no entry carries it. -/
theorem cacheHas_eq_false_iff (k : String) (c : Cache) :
    cacheHas k c = false ↔ ∀ kv ∈ c, kv.1 ≠ k := by
  rw [← Bool.not_eq_true]
  simp [cacheHas, List.any_eq_true]
  constructor
  · intro h a b hab hak
    exact h b (by rw [← hak]; exact hab)
  · intro h x hkx
    exact h k x hkx rfl

/-- Absence of a key from the key list gives `cacheHas … = false`. -/
theorem cacheHas_eq_false_of_not_mem_keys (k : String) (c : Cache)
    (h : k ∉ c.map Prod.fst) : cacheHas k c = false := by
  rw [cacheHas_eq_false_iff]
  intro kv hkv hk
  exact h (List.mem_map.mpr ⟨kv, hkv, hk⟩)

/-- Setting a fresh key appends the new entry. -/
theorem cacheSet_fresh (k : String) (v : List ℚ) (c : Cache)
    (h : cacheHas k c = false) : cacheSet k v c = c ++ [(k, v)] := by
  simp [cacheSet, h]

/-- `cacheSet` grows the size by at most one. -/
theorem length_cacheSet_le (k : String) (v : List ℚ) (c : Cache) :
    (cacheSet k v c).length ≤ c.length + 1 := by
  unfold cacheSet
  split
  · simp
  · simp

/-- Deleting the head key removes exactly the head entry. -/
theorem cacheDelete_cons (k : String) (v : List ℚ) (t : Cache) :
    cacheDelete k ((k, v) :: t) = t := by
  simp [cacheDelete]

/-- One `addToCache` step preserves the size bound `maxCacheSize`. -/
theorem addToCache_length_le (k : String) (v : List ℚ) (c : Cache)
    (h : c.length ≤ maxCacheSize) :
    (addToCache k v c).length ≤ maxCacheSize := by
  unfold addToCache
  by_cases hge : maxCacheSize ≤ cacheSize c
  · rw [if_pos hge]
    have hc : c.length = maxCacheSize := le_antisymm h hge
    cases c with
    | nil => simp [maxCacheSize] at hc
    | cons kv t =>
      have hfirst : cacheFirstKey (kv :: t) = some kv.1 := by
        simp [cacheFirstKey]
      rw [hfirst]
      calc (cacheSet k v (cacheDelete kv.1 (kv :: t))).length
          ≤ (cacheDelete kv.1 (kv :: t)).length + 1 := length_cacheSet_le ..
        _ = t.length + 1 := by rw [show cacheDelete kv.1 (kv :: t) = t from cacheDelete_cons kv.1 kv.2 t]
        _ = (kv :: t).length := by simp
        _ = maxCacheSize := hc
  · rw [if_neg hge]
    have hlt : c.length < maxCacheSize := by
      simpa [cacheSize] using lt_of_not_le hge
    calc (cacheSet k v c).length ≤ c.length + 1 := length_cacheSet_le ..
      _ ≤ maxCacheSize := hlt

/-- Any insertion sequence keeps the cache within `maxCacheSize`. -/
theorem foldl_addToCache_length_le (inserts : List (String × List ℚ)) :
    ∀ c : Cache, c.length ≤ maxCacheSize →
      (inserts.foldl (fun acc kv => addToCache kv.1 kv.2 acc) c).length ≤ maxCacheSize := by
  induction inserts with
  | nil => intro c h; simpa using h
  | cons kv rest ih =>
    intro c h
    exact ih _ (addToCache_length_le kv.1 kv.2 c h)

/-- Below capacity, inserting a fresh key is a plain append. -/
theorem addToCache_fresh_small (k : String) (v : List ℚ) (c : Cache)
    (hlen : c.length < maxCacheSize) (hfresh : cacheHas k c = false) :
    addToCache k v c = c ++ [(k, v)] := by
  simp only [addToCache]
  rw [if_neg (by simpa [cacheSize] using not_le_of_lt hlen)]
  exact cacheSet_fresh k v c hfresh

/-- Folding fresh distinct keys into a small enough cache appends them all
in order. -/
theorem foldl_addToCache_fresh (v : List ℚ) :
    ∀ (ks : List String) (c : Cache),
      (c.map Prod.fst ++ ks).Nodup → c.length + ks.length ≤ maxCacheSize →
      ks.foldl (fun acc k2 => addToCache k2 v acc) c =
        c ++ ks.map (fun k2 => (k2, v)) := by
  intro ks
  induction ks with
  | nil => intro c _ _; simp
  | cons k rest ih =>
    intro c hnd hlen
    have hklen : c.length < maxCacheSize := by
      simp [List.length_cons] at hlen
      omega
    have hkfresh : cacheHas k c = false := by
      apply cacheHas_eq_false_of_not_mem_keys
      have hdisj := (List.nodup_append.mp hnd).2.2
      intro hk
      exact hdisj hk (List.mem_cons_self k rest)
    rw [List.foldl_cons, addToCache_fresh_small k v c hklen hkfresh]
    rw [ih (c ++ [(k, v)]) ?nd ?len]
    · simp
    case nd =>
      have heq : (c ++ [(k, v)]).map Prod.fst ++ rest =
          c.map Prod.fst ++ (k :: rest) := by
        simp
      rw [heq]
      exact hnd
    case len =>
      simp only [List.length_append, List.length_cons, List.length_singleton,
        List.length_nil] at hlen ⊢
      omega

/-- Inserting `maxCacheSize + 1` distinct keys into the empty cache stays
within the bound and evicts the first-inserted key. -/
theorem addToCache_oldest_eviction (k0 : String) (rest : List String) (v : List ℚ)
    (hnd : (k0 :: rest).Nodup) (hlen : rest.length = maxCacheSize) :
    ((k0 :: rest).foldl (fun acc k2 => addToCache k2 v acc) []).length ≤ maxCacheSize ∧
    cacheHas k0 ((k0 :: rest).foldl (fun acc k2 => addToCache k2 v acc) []) = false := by
  have hne : rest ≠ [] := by
    intro h
    rw [h] at hlen
    simp [maxCacheSize] at hlen
  obtain ⟨mid, klast, rfl⟩ : ∃ mid klast, rest = mid ++ [klast] :=
    ⟨rest.dropLast, rest.getLast hne, (List.dropLast_append_getLast hne).symm⟩
  have hmidlen : mid.length + 1 = maxCacheSize := by
    simpa using hlen
  have hk0rest := List.nodup_cons.mp hnd
  have hk0notmid : k0 ∉ mid := fun hm => hk0rest.1 (List.mem_append_left _ hm)
  have hk0neklast : k0 ≠ klast := by
    intro h
    exact hk0rest.1 (List.mem_append_right _ (h ▸ List.mem_singleton_self klast))
  have hmidnd : mid.Nodup := (List.nodup_append.mp hk0rest.2).1
  have hklastnotmid : klast ∉ mid := by
    intro hm
    exact (List.nodup_append.mp hk0rest.2).2.2 hm (List.mem_singleton_self klast)
  have step0 : addToCache k0 v [] = [(k0, v)] := by
    simp [addToCache, cacheSize, maxCacheSize, cacheSet, cacheHas]
  have stepmid :
      mid.foldl (fun acc k2 => addToCache k2 v acc) [(k0, v)] =
        (k0, v) :: mid.map (fun k2 => (k2, v)) := by
    have h1 : (([(k0, v)] : Cache).map Prod.fst ++ mid).Nodup := by
      simp only [List.map_singleton]
      exact List.nodup_cons.mpr ⟨hk0notmid, hmidnd⟩
    have h2 : ([(k0, v)] : Cache).length + mid.length ≤ maxCacheSize := by
      simp only [List.length_singleton]
      omega
    simpa using foldl_addToCache_fresh v mid [(k0, v)] h1 h2
  have hlast :
      addToCache klast v ((k0, v) :: mid.map (fun k2 => (k2, v))) =
        mid.map (fun k2 => (k2, v)) ++ [(klast, v)] := by
    have hsize : maxCacheSize ≤ cacheSize ((k0, v) :: mid.map (fun k2 => (k2, v))) := by
      simp only [cacheSize, List.length_cons, List.length_map]
      omega
    have hfk : cacheFirstKey ((k0, v) :: mid.map (fun k2 => (k2, v))) = some k0 := by
      simp [cacheFirstKey]
    have hfresh : cacheHas klast (mid.map (fun k2 => (k2, v))) = false := by
      apply cacheHas_eq_false_of_not_mem_keys
      simpa [List.map_map, Function.comp] using hklastnotmid
    simp only [addToCache]
    rw [if_pos hsize, hfk]
    dsimp only
    rw [show cacheDelete k0 ((k0, v) :: mid.map (fun k2 => (k2, v))) =
          mid.map (fun k2 => (k2, v)) from cacheDelete_cons k0 v _]
    exact cacheSet_fresh _ _ _ hfresh
  have hfold :
      ((k0 :: (mid ++ [klast])).foldl (fun acc k2 => addToCache k2 v acc) []) =
        mid.map (fun k2 => (k2, v)) ++ [(klast, v)] := by
    rw [List.foldl_cons, step0, List.foldl_append, stepmid, List.foldl_cons,
      List.foldl_nil, hlast]
  rw [hfold]
  constructor
  · simp only [List.length_append, List.length_map, List.length_singleton]
    omega
  · apply cacheHas_eq_false_of_not_mem_keys
    simp only [List.map_append, List.map_map, List.map_singleton]
    intro hmem
    rcases List.mem_append.mp hmem with hm | hm
    · exact hk0notmid (by simpa [Function.comp] using hm)
    · exact hk0neklast (by simpa using hm)

/-- The witness keys are `maxCacheSize` pairwise-distinct strings. -/
theorem witnessKeys_sound :
    ("" :: witnessKeys).Nodup ∧ witnessKeys.length = maxCacheSize := by
  have hinj : Function.Injective (fun n : ℕ => witnessKey (n + 1)) := by
    intro a b hab
    have hl := congrArg (fun s : String => s.data.length) hab
    simpa [witnessKey] using hl
  refine ⟨List.nodup_cons.mpr ⟨?_, List.Nodup.map hinj (List.nodup_range maxCacheSize)⟩, by
    simp [witnessKeys]⟩
  intro hmem
  obtain ⟨n, _, he⟩ := List.mem_map.mp hmem
  have hl := congrArg (fun s : String => s.data.length) he
  simp [witnessKey] at hl

/-- Claim C7: the embedding cache never exceeds `maxCacheSize = 1000`
entries under any insertion sequence, and after inserting
`maxCacheSize + 1` distinct keys into an initially empty cache the size is
still within the bound and the first-inserted key has been evicted. -/
theorem embedding_cache_bounded_oldest_evicted (k0 : String)
    (rest : List String) (v : List ℚ) (inserts : List (String × List ℚ))
    (hnd : (k0 :: rest).Nodup) (hlen : rest.length = maxCacheSize) :
    (inserts.foldl (fun acc kv => addToCache kv.1 kv.2 acc) []).length ≤
      maxCacheSize ∧
    ((k0 :: rest).foldl (fun acc k2 => addToCache k2 v acc) []).length ≤
      maxCacheSize ∧
    cacheHas k0 ((k0 :: rest).foldl (fun acc k2 => addToCache k2 v acc) []) =
      false :=
  ⟨foldl_addToCache_length_le inserts [] (by simp),
   (addToCache_oldest_eviction k0 rest v hnd hlen).1,
   (addToCache_oldest_eviction k0 rest v hnd hlen).2⟩

/-- Witness for C7: the empty key followed by 1000 distinct non-empty keys. -/
theorem embedding_cache_bounded_oldest_evicted_witness :
    (([("x", [])] : List (String × List ℚ)).foldl
        (fun acc kv => addToCache kv.1 kv.2 acc) []).length ≤ maxCacheSize ∧
    (("" :: witnessKeys).foldl (fun acc k2 => addToCache k2 [] acc) []).length ≤
      maxCacheSize ∧
    cacheHas ("")
      (("" :: witnessKeys).foldl (fun acc k2 => addToCache k2 [] acc) []) =
      false :=
  embedding_cache_bounded_oldest_evicted ("") witnessKeys [] [(("x"), [])]
    witnessKeys_sound.1 witnessKeys_sound.2
